import Mathlib

/-!
# Verification of the trading-bot repository

Shallow embedding of the Python sources under `src/bot/` into Lean 4.

Conventions used throughout:
* Python `float` values carrying exact market data are modelled as `ℚ`;
  `NaN` / missing indicator values are modelled as `Option ℚ` with `none`
  standing for `NaN`.  IEEE comparisons against `NaN` are always `False`,
  which the `Option` comparison helpers reproduce.
* Python dicts keyed by symbol are modelled as functions `String → Option _`.
* Dates are modelled as natural numbers ordered like calendar dates.
* `print` calls and file persistence (`_save_state`, `_save_trade_history`)
  have no effect on the values the claims are about and are elided.
-/

namespace TradingBot

/-! ## Risk manager (`src/bot/risk_manager.py`) -/

/-- A tracked open position in the risk manager
(`RiskManager.open_positions` values: `{entry_price, quantity, timestamp}`). -/
structure RMPosition where
  entry_price : ℚ
  quantity : ℚ
  timestamp : ℕ
deriving DecidableEq, Repr

/-- Risk parameters read from the config in `RiskManager.__init__`. -/
structure RiskConfig where
  stop_loss_percent : ℚ
  take_profit_percent : ℚ
  position_size_percent : ℚ
  max_daily_loss_percent : ℚ
  max_trades_per_day : ℕ
deriving Repr

/-- Mutable state of `RiskManager`. -/
structure RiskState where
  emergency_stop : Bool
  daily_loss : ℚ
  daily_trades : ℕ
  last_reset_date : ℕ
  initial_daily_balance : Option ℚ
  open_positions : String → Option RMPosition

/-- Python truthiness of an optional number: `None` and `0` are falsy. -/
def truthy : Option ℚ → Bool
  | none => false
  | some x => decide (x ≠ 0)

/-- `RiskManager.reset_daily_limits`: on a new day, clear the daily loss,
the daily trade count and the cached daily opening balance.  It never touches
`emergency_stop` or the open positions. -/
def reset_daily_limits (today : ℕ) (s : RiskState) : RiskState :=
  if s.last_reset_date < today then
    { s with daily_loss := 0, daily_trades := 0, last_reset_date := today,
             initial_daily_balance := none }
  else s

/-- The reason string returned by `RiskManager.can_trade`, by kind. -/
inductive CanTradeReason where
  | emergencyStopActive
  | dailyTradeLimit
  | dailyLossLimit
  | allowed
deriving DecidableEq, Repr

/-- `RiskManager.can_trade(current_balance)`: resets daily limits, then checks
emergency stop, the daily trade limit and the daily loss limit in this order.
Returns the updated state together with `(can_trade, reason)`.  The Python
`if current_balance and self.initial_daily_balance:` tests truthiness of both
optionals. -/
def can_trade (cfg : RiskConfig) (today : ℕ) (s0 : RiskState)
    (current_balance : Option ℚ) : RiskState × Bool × CanTradeReason :=
  let s := reset_daily_limits today s0
  if s.emergency_stop then (s, false, .emergencyStopActive)
  else if cfg.max_trades_per_day ≤ s.daily_trades then (s, false, .dailyTradeLimit)
  else if truthy current_balance && truthy s.initial_daily_balance then
    let cb := current_balance.getD 0
    let idb := s.initial_daily_balance.getD 0
    let daily_loss_percent := (idb - cb) / idb * 100
    if cfg.max_daily_loss_percent ≤ daily_loss_percent then
      (s, false, .dailyLossLimit)
    else (s, true, .allowed)
  else if truthy current_balance then
    ({ s with initial_daily_balance := current_balance }, true, .allowed)
  else (s, true, .allowed)

/-- `RiskManager.check_stop_loss(symbol, current_price)`: `False` when the
symbol has no tracked position; otherwise triggers when the loss percentage
reaches `stop_loss_percent`. -/
def check_stop_loss (cfg : RiskConfig) (s : RiskState) (symbol : String)
    (current_price : ℚ) : Bool :=
  match s.open_positions symbol with
  | none => false
  | some pos =>
    let loss_percent := (pos.entry_price - current_price) / pos.entry_price * 100
    decide (cfg.stop_loss_percent ≤ loss_percent)

/-- `RiskManager.check_take_profit(symbol, current_price)`: `False` when the
symbol has no tracked position; otherwise triggers when the profit percentage
reaches `take_profit_percent`. -/
def check_take_profit (cfg : RiskConfig) (s : RiskState) (symbol : String)
    (current_price : ℚ) : Bool :=
  match s.open_positions symbol with
  | none => false
  | some pos =>
    let profit_percent := (current_price - pos.entry_price) / pos.entry_price * 100
    decide (cfg.take_profit_percent ≤ profit_percent)

/-! ## Portfolio ledger (`src/bot/portfolio.py`) -/

/-- Position side as stored by `Portfolio.add_position` (`'buy'`/`'sell'`). -/
inductive Side where
  | buy
  | sell
deriving DecidableEq, Repr

/-- An open position tracked by `Portfolio.open_positions`. -/
structure PPosition where
  side : Side
  entry_price : ℚ
  quantity : ℚ
  timestamp : ℕ
deriving DecidableEq, Repr

/-- A closed-trade record appended to `Portfolio.trade_history`. -/
structure PTrade where
  symbol : String
  side : Side
  entry_price : ℚ
  exit_price : ℚ
  quantity : ℚ
  pnl : ℚ
  pnl_percent : ℚ
  entry_time : ℕ
  exit_time : ℕ
deriving DecidableEq, Repr

/-- State of the `Portfolio` ledger: trade history plus open positions. -/
structure PortfolioState where
  trade_history : List PTrade
  open_positions : String → Option PPosition

/-- `Portfolio.close_position(symbol, exit_price, timestamp)`: with no open
position for the symbol, warn and return `None` leaving the state untouched;
otherwise compute the side-dependent P&L, append the trade record, delete the
position and return the P&L. -/
def close_position (p : PortfolioState) (symbol : String) (exit_price : ℚ)
    (timestamp : ℕ) : PortfolioState × Option ℚ :=
  match p.open_positions symbol with
  | none => (p, none)
  | some pos =>
    let pnl :=
      match pos.side with
      | .buy => (exit_price - pos.entry_price) * pos.quantity
      | .sell => (pos.entry_price - exit_price) * pos.quantity
    let pnl_percent :=
      match pos.side with
      | .buy => (exit_price - pos.entry_price) / pos.entry_price * 100
      | .sell => (pos.entry_price - exit_price) / pos.entry_price * 100
    let trade : PTrade :=
      { symbol := symbol, side := pos.side, entry_price := pos.entry_price,
        exit_price := exit_price, quantity := pos.quantity, pnl := pnl,
        pnl_percent := pnl_percent, entry_time := pos.timestamp,
        exit_time := timestamp }
    ({ trade_history := p.trade_history ++ [trade],
       open_positions := fun s => if s = symbol then none else p.open_positions s },
     some pnl)

/-! ## Backtesting engine (`src/bot/backtester.py`)

`Backtester.run_backtest` iterates over the bars of the indicator-enriched
dataframe from index 50 on.  At each bar it computes a `(signal, confidence)`
pair with `analyze_advanced_strategy` on the data prefix, executes the trading
rules, and appends an equity point.  The accounting claims hold for every
sequence of signal outcomes, so the simulation loop is embedded as a fold over
the list of per-bar `(signal, confidence, bar)` triples, universally
quantified over the signal outcomes (which the strategy module produces). -/

/-- A trading signal as returned by the strategy. -/
inductive Signal where
  | buy
  | sell
  | hold
deriving DecidableEq, Repr

/-- One historical bar as seen by the simulation loop: its close price and
timestamp. -/
structure Bar where
  close : ℚ
  timestamp : ℕ
deriving DecidableEq, Repr

/-- The open long position of the simulation
(`position = {'type': 'long', 'entry_price', 'quantity', 'entry_time'}`). -/
structure BtPosition where
  entry_price : ℚ
  quantity : ℚ
  entry_time : ℕ
deriving DecidableEq, Repr

/-- A closed-trade record appended to `trades` in `run_backtest`. -/
structure BtTrade where
  entry_time : ℕ
  exit_time : ℕ
  entry_price : ℚ
  exit_price : ℚ
  quantity : ℚ
  pnl : ℚ
  pnl_percent : ℚ
deriving DecidableEq, Repr

/-- A point of the equity curve built by `run_backtest`. -/
structure EquityPoint where
  timestamp : ℕ
  equity : ℚ
deriving DecidableEq, Repr

/-- The mutable simulation state of `run_backtest`:
`balance`, `position`, `trades`, `equity_curve`. -/
structure SimState where
  balance : ℚ
  position : Option BtPosition
  trades : List BtTrade
  equity_curve : List EquityPoint
deriving DecidableEq, Repr

/-- One iteration of the `for i in range(50, len(df))` loop of `run_backtest`,
given the `(signal, confidence)` computed for this bar: open a long position on
a confident buy when flat, close it on a sell, then append the equity point
(`balance` if flat, else `quantity * current_price`). -/
def backtestStep (signal : Signal) (confidence : ℚ) (bar : Bar)
    (s : SimState) : SimState :=
  let s' :=
    if signal = Signal.buy ∧ s.position = none ∧ 60 ≤ confidence then
      { s with position := some { entry_price := bar.close,
                                  quantity := s.balance / bar.close,
                                  entry_time := bar.timestamp } }
    else
      match s.position with
      | some pos =>
        if signal = Signal.sell then
          let pnl := (bar.close - pos.entry_price) * pos.quantity
          let pnl_percent := (bar.close - pos.entry_price) / pos.entry_price * 100
          { s with balance := s.balance + pnl,
                   trades := s.trades ++
                     [{ entry_time := pos.entry_time, exit_time := bar.timestamp,
                        entry_price := pos.entry_price, exit_price := bar.close,
                        quantity := pos.quantity, pnl := pnl,
                        pnl_percent := pnl_percent }],
                   position := none }
        else s
      | none => s
  let equity :=
    match s'.position with
    | none => s'.balance
    | some pos => pos.quantity * bar.close
  { s' with equity_curve := s'.equity_curve ++
      [{ timestamp := bar.timestamp, equity := equity }] }

/-- The whole simulation loop of `run_backtest`, folded over the per-bar
signal outcomes and bars. -/
def runSimLoop (steps : List (Signal × ℚ × Bar)) (s : SimState) : SimState :=
  steps.foldl (fun st x => backtestStep x.1 x.2.1 x.2.2 st) s

/-- The initial simulation state of `run_backtest`. -/
def initialSimState (initial_balance : ℚ) : SimState :=
  { balance := initial_balance, position := none, trades := [], equity_curve := [] }

/-- The forced close after the loop of `run_backtest`: if a position is still
open, fold `(last close − entry_price) * quantity` into the balance; no trade
record is appended.  Returns `(final_balance, trades)`. -/
def finalizeBacktest (lastClose : ℚ) (s : SimState) : ℚ × List BtTrade :=
  match s.position with
  | some pos => (s.balance + (lastClose - pos.entry_price) * pos.quantity, s.trades)
  | none => (s.balance, s.trades)

/-- The P&L the forced end-of-run close adds to the balance: zero when flat. -/
def forcedClosePnl (lastClose : ℚ) (position : Option BtPosition) : ℚ :=
  match position with
  | some pos => (lastClose - pos.entry_price) * pos.quantity
  | none => 0

/-- Sum of the `pnl` fields over a list of recorded trades. -/
def tradesPnlSum (ts : List BtTrade) : ℚ :=
  (ts.map BtTrade.pnl).sum

/-! ## Advanced strategy (`src/bot/advanced_strategy.py`)

`analyze_advanced_strategy` reads the last two rows of the indicator-enriched
dataframe (`df.iloc[-1]` and `df.iloc[-2]`), counts how many of five indicator
checks vote buy or sell, and applies a 60% confidence threshold.  A dataframe
row is a record of possibly-`NaN` indicator values; `none` stands for `NaN`,
and every IEEE comparison involving `NaN` is `False`. -/

/-- One dataframe row with the fields the strategy reads. -/
structure Row where
  rsi : Option ℚ
  macd : Option ℚ
  macd_signal : Option ℚ
  bb_upper : Option ℚ
  bb_lower : Option ℚ
  ema_12 : Option ℚ
  ema_26 : Option ℚ
  close : Option ℚ
deriving DecidableEq, Repr

/-- Strategy thresholds pulled from the config in `analyze_advanced_strategy`
(`RSI_OVERSOLD`, default 30; `RSI_OVERBOUGHT`, default 70). -/
structure StratConfig where
  rsi_oversold : ℚ
  rsi_overbought : ℚ
deriving DecidableEq, Repr

/-- IEEE `<` on possibly-`NaN` values: `False` when either side is `NaN`. -/
def oLt : Option ℚ → Option ℚ → Bool
  | some x, some y => decide (x < y)
  | _, _ => false

/-- IEEE `≤` on possibly-`NaN` values: `False` when either side is `NaN`. -/
def oLe : Option ℚ → Option ℚ → Bool
  | some x, some y => decide (x ≤ y)
  | _, _ => false

/-- All eight columns `analyze_advanced_strategy` requires on the latest row
(`pd.isna` check): `true` iff none of them is `NaN`. -/
def requiredDefined (r : Row) : Bool :=
  r.rsi.isSome && r.macd.isSome && r.macd_signal.isSome && r.bb_upper.isSome &&
    r.bb_lower.isSome && r.ema_12.isSome && r.ema_26.isSome && r.close.isSome

/-- Check 1, RSI: buy when `rsi < RSI_OVERSOLD`, else sell when
`rsi > RSI_OVERBOUGHT`.  Returns the `(buy, sell)` vote contribution. -/
def rsiVote (latest : Row) (cfg : StratConfig) : ℕ × ℕ :=
  if oLt latest.rsi (some cfg.rsi_oversold) then (1, 0)
  else if oLt (some cfg.rsi_overbought) latest.rsi then (0, 1)
  else (0, 0)

/-- Check 2, MACD crossover: buy on a bullish crossover
(`macd > macd_signal` now, `macd ≤ macd_signal` on the previous row), sell on
the symmetric bearish crossover. -/
def macdVote (latest previous : Row) : ℕ × ℕ :=
  if oLt latest.macd_signal latest.macd && oLe previous.macd previous.macd_signal
    then (1, 0)
  else if oLt latest.macd latest.macd_signal && oLe previous.macd_signal previous.macd
    then (0, 1)
  else (0, 0)

/-- Check 3, EMA trend: buy when `ema_12 > ema_26`, otherwise (including when
either is `NaN`) sell — the Python code has a bare `else`. -/
def emaVote (latest : Row) : ℕ × ℕ :=
  if oLt latest.ema_26 latest.ema_12 then (1, 0) else (0, 1)

/-- Check 4, Bollinger Bands: buy when `close < bb_lower`, else sell when
`close > bb_upper`. -/
def bbVote (latest : Row) : ℕ × ℕ :=
  if oLt latest.close latest.bb_lower then (1, 0)
  else if oLt latest.bb_upper latest.close then (0, 1)
  else (0, 0)

/-- Check 5, price momentum:
`price_change = (close − prev_close) / prev_close * 100`; buy when it exceeds
1%, sell when below −1%.  A `NaN` operand yields a `NaN` change and no vote.
A zero previous close produces `±inf` (numpy float division), voting with the
sign of the latest close, and `0/0 = NaN` votes neither. -/
def momentumVote (latest previous : Row) : ℕ × ℕ :=
  match latest.close, previous.close with
  | some l, some p =>
    if p = 0 then
      if 0 < l then (1, 0) else if l < 0 then (0, 1) else (0, 0)
    else
      let price_change := (l - p) / p * 100
      if 1 < price_change then (1, 0)
      else if price_change < -1 then (0, 1)
      else (0, 0)
  | _, _ => (0, 0)

/-- The `(buy_signals, sell_signals)` tallies over the five checks. -/
def voteCounts (latest previous : Row) (cfg : StratConfig) : ℕ × ℕ :=
  let v1 := rsiVote latest cfg
  let v2 := macdVote latest previous
  let v3 := emaVote latest
  let v4 := bbVote latest
  let v5 := momentumVote latest previous
  (v1.1 + v2.1 + v3.1 + v4.1 + v5.1, v1.2 + v2.2 + v3.2 + v4.2 + v5.2)

/-- `buy_confidence = buy_signals / max_signals * 100` with `max_signals = 5`. -/
def buyConfidence (latest previous : Row) (cfg : StratConfig) : ℚ :=
  ((voteCounts latest previous cfg).1 : ℚ) / 5 * 100

/-- `sell_confidence = sell_signals / max_signals * 100` with `max_signals = 5`. -/
def sellConfidence (latest previous : Row) (cfg : StratConfig) : ℚ :=
  ((voteCounts latest previous cfg).2 : ℚ) / 5 * 100

/-- The kind of reason string returned by `analyze_advanced_strategy`. -/
inductive Reason where
  | insufficientData
  | waitingForIndicator
  | buySignal
  | sellSignal
  | holdSignal
deriving DecidableEq, Repr

/-- The `(signal, confidence, reason)` triple the strategy returns. -/
structure StratResult where
  signal : Signal
  confidence : ℚ
  reason : Reason
deriving DecidableEq, Repr

/-- The confidence-threshold decision at the end of
`analyze_advanced_strategy` (`min_confidence = 60`). -/
def voteResult (latest previous : Row) (cfg : StratConfig) : StratResult :=
  if 60 ≤ buyConfidence latest previous cfg ∧
      sellConfidence latest previous cfg < buyConfidence latest previous cfg then
    ⟨Signal.buy, buyConfidence latest previous cfg, Reason.buySignal⟩
  else if 60 ≤ sellConfidence latest previous cfg ∧
      buyConfidence latest previous cfg < sellConfidence latest previous cfg then
    ⟨Signal.sell, sellConfidence latest previous cfg, Reason.sellSignal⟩
  else
    ⟨Signal.hold,
      max (buyConfidence latest previous cfg) (sellConfidence latest previous cfg),
      Reason.holdSignal⟩

/-- `analyze_advanced_strategy(df, config)`: with fewer than 50 rows, return
the `"Insufficient data"` sentinel; with any required column `NaN` on the
latest row (`df.iloc[-1]`), return the `"Waiting for indicator data"`
sentinel; otherwise run the five-check vote against the latest and previous
(`df.iloc[-2]`) rows.  The final match arm is unreachable once
`df.length ≥ 50`. -/
def analyze_advanced_strategy (df : List Row) (cfg : StratConfig) : StratResult :=
  if df.length < 50 then ⟨Signal.hold, 0, Reason.insufficientData⟩
  else
    match df.getLast?, df.dropLast.getLast? with
    | some latest, some previous =>
      if requiredDefined latest then voteResult latest previous cfg
      else ⟨Signal.hold, 0, Reason.waitingForIndicator⟩
    | _, _ => ⟨Signal.hold, 0, Reason.insufficientData⟩

/-- The two sentinel outcomes of `analyze_advanced_strategy`: the result's
reason is one of the two data-sufficiency messages. -/
def isSentinel (r : StratResult) : Prop :=
  r.reason = Reason.insufficientData ∨ r.reason = Reason.waitingForIndicator

/-! ## Technical indicators (`src/bot/indicators.py`)

`calculate_rsi` works on a price series.  `prices.diff()` has `NaN` at
index 0; `delta.where(delta > 0, 0)` replaces every entry whose comparison
fails — including that `NaN` — with `0`, so the gain and loss series contain
no `NaN` at all.  The rolling mean is undefined until its window holds
`period` valid entries. -/

/-- The gain series `delta.where(delta > 0, 0)` of `calculate_rsi`:
entry 0 is `0` (from the `NaN` delta), entry `i ≥ 1` is
`max(prices[i] − prices[i−1], 0)`. -/
def gains (prices : List ℚ) : List ℚ :=
  match prices with
  | [] => []
  | _ :: _ =>
    0 :: List.zipWith (fun a b => if a < b then b - a else 0) prices prices.tail

/-- The loss series `(−delta).where(delta < 0, 0)` of `calculate_rsi`:
entry 0 is `0`, entry `i ≥ 1` is `max(prices[i−1] − prices[i], 0)`. -/
def losses (prices : List ℚ) : List ℚ :=
  match prices with
  | [] => []
  | _ :: _ =>
    0 :: List.zipWith (fun a b => if b < a then a - b else 0) prices prices.tail

/-- `Series.rolling(window=period).mean()` at index `i`: defined once the
window is full (`period ≤ i + 1` valid entries), as the arithmetic mean of
entries `i + 1 − period` through `i`. -/
def rollingMean (period : ℕ) (l : List ℚ) (i : ℕ) : Option ℚ :=
  if period ≤ i + 1 ∧ i < l.length then
    some (((l.take (i + 1)).drop (i + 1 - period)).sum / period)
  else none

/-- `calculate_rsi(prices, period)` at index `i`:
`rs = gain/loss` and `rsi = 100 − 100/(1 + rs)`, with the float special
cases spelled out: positive gain over zero loss gives `rs = +inf` hence
`rsi = 100`; a `0/0` gives `NaN`, i.e. undefined. -/
def calculate_rsi (prices : List ℚ) (period : ℕ) (i : ℕ) : Option ℚ :=
  match rollingMean period (gains prices) i, rollingMean period (losses prices) i with
  | some g, some l =>
    if 0 < l then some (100 - 100 / (1 + g / l))
    else if 0 < g then some 100
    else none
  | _, _ => none

/-! ## Maximum drawdown (`Backtester._calculate_metrics`)

The running-peak scan over the equity values, in chronological order:
`peak = max(peak, equity)`, `drawdown = (peak − equity)/peak · 100`,
accumulating the maximum drawdown seen. -/

/-- One iteration of the drawdown loop on the `(peak, max_drawdown)` pair. -/
def mdStep (acc : ℚ × ℚ) (e : ℚ) : ℚ × ℚ :=
  let peak := if acc.1 < e then e else acc.1
  let drawdown := (peak - e) / peak * 100
  (peak, if acc.2 < drawdown then drawdown else acc.2)

/-- The `max_drawdown` metric: the scan seeded with
`peak = equity_values[0]` and `max_drawdown = 0`, run over the whole list.
(`_calculate_metrics` only reaches the scan when trades exist, and the
equity curve is then non-empty; the `[]` case is a placeholder.) -/
def max_drawdown (equity_values : List ℚ) : ℚ :=
  match equity_values with
  | [] => 0
  | e :: rest => ((e :: rest).foldl mdStep (e, 0)).2

end TradingBot

namespace TradingBot

/-! ### Theorems for claims C4 and C10 -/

/-- C4: whenever `emergency_stop` is set, `can_trade` denies trading with the
emergency-stop reason, for every balance argument (`None`, `0`, or any value)
and every date; moreover the daily-limit reset performed at the start of
`can_trade` never clears `emergency_stop`. -/
theorem can_trade_emergency_stop (cfg : RiskConfig) (today : ℕ) (s0 : RiskState)
    (bal : Option ℚ) (h : s0.emergency_stop = true) :
    (can_trade cfg today s0 bal).2.1 = false ∧
    (can_trade cfg today s0 bal).2.2 = .emergencyStopActive ∧
    (reset_daily_limits today s0).emergency_stop = true := by
  have hreset : (reset_daily_limits today s0).emergency_stop = true := by
    unfold reset_daily_limits
    split <;> simpa using h
  refine ⟨?_, ?_, hreset⟩ <;>
    · unfold can_trade
      simp only [hreset, if_true]

/-- Concrete witness for `can_trade_emergency_stop`: an emergency-stopped
state with a zero balance is denied. -/
theorem can_trade_emergency_stop_witness :
    (can_trade ⟨2, 5, 10, 5, 10⟩ 7
      ⟨true, 0, 0, 3, none, fun _ => none⟩ (some 0)).2.1 = false :=
  (can_trade_emergency_stop ⟨2, 5, 10, 5, 10⟩ 7
    ⟨true, 0, 0, 3, none, fun _ => none⟩ (some 0) rfl).1

/-- C10: for a symbol without a tracked open position, both `check_stop_loss`
and `check_take_profit` return `False` for every current price. -/
theorem check_stops_untracked (cfg : RiskConfig) (s : RiskState)
    (symbol : String) (price : ℚ) (h : s.open_positions symbol = none) :
    check_stop_loss cfg s symbol price = false ∧
    check_take_profit cfg s symbol price = false := by
  refine ⟨?_, ?_⟩
  · unfold check_stop_loss
    rw [h]
  · unfold check_take_profit
    rw [h]

/-- Concrete witness for `check_stops_untracked`: an empty position book
reports no trigger for `"BTC/USDT"`. -/
theorem check_stops_untracked_witness :
    check_stop_loss ⟨2, 5, 10, 5, 10⟩
      ⟨false, 0, 0, 3, none, fun _ => none⟩ "BTC/USDT" 100 = false :=
  (check_stops_untracked ⟨2, 5, 10, 5, 10⟩
    ⟨false, 0, 0, 3, none, fun _ => none⟩ "BTC/USDT" 100 rfl).1

/-! ### Theorem for claim C8 -/

/-- C8: after a successful `close_position` for a symbol, a second
`close_position` call for the same symbol returns `None` and the exact state
produced by the first call: no second trade record is appended and the
open-positions map and trade history are unchanged. -/
theorem close_position_idempotent (p : PortfolioState) (symbol : String)
    (pos : PPosition) (e₁ e₂ : ℚ) (t₁ t₂ : ℕ)
    (h : p.open_positions symbol = some pos) :
    close_position (close_position p symbol e₁ t₁).1 symbol e₂ t₂ =
      ((close_position p symbol e₁ t₁).1, none) := by
  have h1 : (close_position p symbol e₁ t₁).1.open_positions symbol = none := by
    unfold close_position
    rw [h]
    simp
  have key : ∀ q : PortfolioState, q.open_positions symbol = none →
      close_position q symbol e₂ t₂ = (q, none) := by
    intro q hq
    unfold close_position
    rw [hq]
  exact key _ h1

/-! ### Theorems for claims C1, C2 and C9 -/

/-- C1: every iteration of the simulation loop appends exactly one equity
point, carrying the bar's timestamp; its equity is the cash balance when no
position is open after this bar's trade execution, and `quantity * close`
(position value only, not balance plus unrealized P&L) when a position is
open. -/
theorem equity_point_convention (signal : Signal) (confidence : ℚ) (bar : Bar)
    (s : SimState) :
    ∃ ep : EquityPoint,
      (backtestStep signal confidence bar s).equity_curve = s.equity_curve ++ [ep] ∧
      ep.timestamp = bar.timestamp ∧
      ((backtestStep signal confidence bar s).position = none →
        ep.equity = (backtestStep signal confidence bar s).balance) ∧
      (∀ pos, (backtestStep signal confidence bar s).position = some pos →
        ep.equity = pos.quantity * bar.close) := by
  by_cases hb : signal = Signal.buy ∧ s.position = none ∧ 60 ≤ confidence
  · exact ⟨⟨bar.timestamp, s.balance / bar.close * bar.close⟩,
      by simp [backtestStep, hb], rfl,
      by simp [backtestStep, hb],
      by simp [backtestStep, hb]⟩
  · match hpos : s.position with
    | none =>
      simp only [hpos, true_and] at hb
      exact ⟨⟨bar.timestamp, s.balance⟩,
        by simp [backtestStep, hb, hpos], rfl,
        by simp [backtestStep, hb, hpos],
        by simp [backtestStep, hb, hpos]⟩
    | some pos =>
      by_cases hs : signal = Signal.sell
      · exact ⟨⟨bar.timestamp,
            s.balance + (bar.close - pos.entry_price) * pos.quantity⟩,
          by simp [backtestStep, hb, hpos, hs], rfl,
          by simp [backtestStep, hb, hpos, hs],
          by simp [backtestStep, hb, hpos, hs]⟩
      · exact ⟨⟨bar.timestamp, pos.quantity * bar.close⟩,
          by simp [backtestStep, hb, hpos, hs], rfl,
          by simp [backtestStep, hb, hpos, hs],
          by simp [backtestStep, hb, hpos, hs]⟩

/-- C2: when a position survives to the end of the run, the forced close adds
`(last close − entry_price) * quantity` to the balance and returns the trades
list unchanged: no trade record is appended for the forced close. -/
theorem forced_close_folds_pnl_no_trade (lastClose : ℚ) (s : SimState)
    (pos : BtPosition) (h : s.position = some pos) :
    finalizeBacktest lastClose s =
      (s.balance + (lastClose - pos.entry_price) * pos.quantity, s.trades) := by
  unfold finalizeBacktest
  rw [h]

/-- Concrete witness for `forced_close_folds_pnl_no_trade`: a state holding
two units bought at 10, force-closed at 12, gains 4 and records no trade. -/
theorem forced_close_folds_pnl_no_trade_witness :
    finalizeBacktest 12 ⟨100, some ⟨10, 2, 0⟩, [], []⟩ = (104, []) := by
  have h := forced_close_folds_pnl_no_trade 12 ⟨100, some ⟨10, 2, 0⟩, [], []⟩
    ⟨10, 2, 0⟩ rfl
  rw [h]
  norm_num

/-- Each loop iteration changes the balance exactly by the P&L of the trade it
records (if any): `balance − Σ pnl` is invariant. -/
theorem backtestStep_balance_inv (signal : Signal) (confidence : ℚ) (bar : Bar)
    (s : SimState) :
    (backtestStep signal confidence bar s).balance -
      tradesPnlSum (backtestStep signal confidence bar s).trades =
    s.balance - tradesPnlSum s.trades := by
  by_cases hb : signal = Signal.buy ∧ s.position = none ∧ 60 ≤ confidence
  · simp [backtestStep, hb]
  · match hpos : s.position with
    | none =>
      simp only [hpos, true_and] at hb
      simp [backtestStep, hb, hpos]
    | some pos =>
      by_cases hs : signal = Signal.sell
      · simp [backtestStep, hb, hpos, hs, tradesPnlSum]
      · simp [backtestStep, hb, hpos, hs]

/-- `balance − Σ pnl` is invariant across the whole simulation loop. -/
theorem runSimLoop_balance_inv (steps : List (Signal × ℚ × Bar)) (s : SimState) :
    (runSimLoop steps s).balance - tradesPnlSum (runSimLoop steps s).trades =
      s.balance - tradesPnlSum s.trades := by
  induction steps generalizing s with
  | nil => rfl
  | cons x rest ih =>
    have hstep := backtestStep_balance_inv x.1 x.2.1 x.2.2 s
    calc (runSimLoop (x :: rest) s).balance -
        tradesPnlSum (runSimLoop (x :: rest) s).trades
        = (runSimLoop rest (backtestStep x.1 x.2.1 x.2.2 s)).balance -
            tradesPnlSum (runSimLoop rest (backtestStep x.1 x.2.1 x.2.2 s)).trades := rfl
      _ = (backtestStep x.1 x.2.1 x.2.2 s).balance -
            tradesPnlSum (backtestStep x.1 x.2.1 x.2.2 s).trades := ih _
      _ = s.balance - tradesPnlSum s.trades := hstep

/-- A loop iteration whose signal is not `buy`, run while flat, keeps the
balance, keeps the trades and stays flat. -/
theorem backtestStep_no_buy (signal : Signal) (confidence : ℚ) (bar : Bar)
    (s : SimState) (hsig : signal ≠ Signal.buy) (hpos : s.position = none) :
    (backtestStep signal confidence bar s).balance = s.balance ∧
    (backtestStep signal confidence bar s).position = none ∧
    (backtestStep signal confidence bar s).trades = s.trades := by
  refine ⟨?_, ?_, ?_⟩ <;> simp [backtestStep, hsig, hpos]

/-- A buy-free simulation loop started flat keeps the balance, the trades and
flatness. -/
theorem runSimLoop_no_buy (steps : List (Signal × ℚ × Bar)) (s : SimState)
    (hnb : ∀ x ∈ steps, x.1 ≠ Signal.buy) (hpos : s.position = none) :
    (runSimLoop steps s).balance = s.balance ∧
    (runSimLoop steps s).position = none ∧
    (runSimLoop steps s).trades = s.trades := by
  induction steps generalizing s with
  | nil => exact ⟨rfl, hpos, rfl⟩
  | cons x rest ih =>
    have hx := backtestStep_no_buy x.1 x.2.1 x.2.2 s (hnb x (by simp)) hpos
    have hrest := ih (fun y hy => hnb y (by simp [hy]))
      (s := backtestStep x.1 x.2.1 x.2.2 s) hx.2.1
    exact ⟨hrest.1.trans hx.1, hrest.2.1, hrest.2.2.trans hx.2.2⟩

/-- C9: over any run, the final balance equals the initial balance plus the
sum of the recorded trades' P&L plus the forced end-of-run close's P&L (zero
when the run ends flat); and a run in which no buy signal ever fires ends with
the initial balance. -/
theorem backtest_balance_accounting (steps : List (Signal × ℚ × Bar))
    (init lastClose : ℚ) :
    (finalizeBacktest lastClose (runSimLoop steps (initialSimState init))).1 =
      init + tradesPnlSum (runSimLoop steps (initialSimState init)).trades +
        forcedClosePnl lastClose (runSimLoop steps (initialSimState init)).position ∧
    ((∀ x ∈ steps, x.1 ≠ Signal.buy) →
      (finalizeBacktest lastClose (runSimLoop steps (initialSimState init))).1 = init) := by
  constructor
  · have hinv := runSimLoop_balance_inv steps (initialSimState init)
    have hinit : (initialSimState init).balance -
        tradesPnlSum (initialSimState init).trades = init := by
      simp [initialSimState, tradesPnlSum]
    rw [hinit] at hinv
    match hpos : (runSimLoop steps (initialSimState init)).position with
    | none =>
      unfold finalizeBacktest forcedClosePnl
      rw [hpos]
      simp only []
      linarith
    | some pos =>
      unfold finalizeBacktest forcedClosePnl
      rw [hpos]
      simp only []
      linarith
  · intro hnb
    have h := runSimLoop_no_buy steps (initialSimState init) hnb rfl
    unfold finalizeBacktest
    rw [h.2.1, h.1]
    rfl

/-- Concrete witness for `backtest_balance_accounting`: a two-bar run holding
only sell/hold signals ends exactly at the initial balance 1000. -/
theorem backtest_balance_accounting_witness :
    (finalizeBacktest 5 (runSimLoop
      [(Signal.hold, 0, ⟨4, 0⟩), (Signal.sell, 80, ⟨5, 1⟩)]
      (initialSimState 1000))).1 = 1000 :=
  (backtest_balance_accounting
    [(Signal.hold, 0, ⟨4, 0⟩), (Signal.sell, 80, ⟨5, 1⟩)] 1000 5).2 (by decide)

/-- Concrete witness for `equity_point_convention`: a hold step on a flat
state appends the balance as equity. -/
theorem equity_point_convention_witness :
    ∃ ep : EquityPoint,
      (backtestStep Signal.hold 0 ⟨4, 7⟩ (initialSimState 1000)).equity_curve =
        (initialSimState 1000).equity_curve ++ [ep] ∧
      ep.timestamp = (7 : ℕ) ∧
      ((backtestStep Signal.hold 0 ⟨4, 7⟩ (initialSimState 1000)).position = none →
        ep.equity = (backtestStep Signal.hold 0 ⟨4, 7⟩ (initialSimState 1000)).balance) ∧
      (∀ pos,
        (backtestStep Signal.hold 0 ⟨4, 7⟩ (initialSimState 1000)).position = some pos →
        ep.equity = pos.quantity * (4 : ℚ)) :=
  equity_point_convention Signal.hold 0 ⟨4, 7⟩ (initialSimState 1000)

/-! ### Theorems for claims C3 and C6 -/

/-- Each of the five checks contributes at most one buy vote and at most one
sell vote, and never both. -/
theorem voteCounts_le_five (latest previous : Row) (cfg : StratConfig) :
    (voteCounts latest previous cfg).1 ≤ 5 ∧
    (voteCounts latest previous cfg).2 ≤ 5 := by
  have h1 : (rsiVote latest cfg).1 ≤ 1 ∧ (rsiVote latest cfg).2 ≤ 1 := by
    unfold rsiVote
    split_ifs <;> simp
  have h2 : (macdVote latest previous).1 ≤ 1 ∧ (macdVote latest previous).2 ≤ 1 := by
    unfold macdVote
    split_ifs <;> simp
  have h3 : (emaVote latest).1 ≤ 1 ∧ (emaVote latest).2 ≤ 1 := by
    unfold emaVote
    split_ifs <;> simp
  have h4 : (bbVote latest).1 ≤ 1 ∧ (bbVote latest).2 ≤ 1 := by
    unfold bbVote
    split_ifs <;> simp
  have h5 : (momentumVote latest previous).1 ≤ 1 ∧
      (momentumVote latest previous).2 ≤ 1 := by
    unfold momentumVote
    rcases latest.close with _ | l <;> rcases previous.close with _ | p
    · simp
    · simp
    · simp
    · simp only []
      split_ifs <;> simp
  have hv : voteCounts latest previous cfg =
      ((rsiVote latest cfg).1 + (macdVote latest previous).1 + (emaVote latest).1 +
        (bbVote latest).1 + (momentumVote latest previous).1,
       (rsiVote latest cfg).2 + (macdVote latest previous).2 + (emaVote latest).2 +
        (bbVote latest).2 + (momentumVote latest previous).2) := rfl
  rw [hv]
  exact ⟨by dsimp only; omega, by dsimp only; omega⟩

/-- Both confidences are percentages in `[0, 100]`. -/
theorem confidence_in_range (latest previous : Row) (cfg : StratConfig) :
    0 ≤ buyConfidence latest previous cfg ∧ buyConfidence latest previous cfg ≤ 100 ∧
    0 ≤ sellConfidence latest previous cfg ∧ sellConfidence latest previous cfg ≤ 100 := by
  obtain ⟨hb, hs⟩ := voteCounts_le_five latest previous cfg
  have hbq : ((voteCounts latest previous cfg).1 : ℚ) ≤ 5 := by exact_mod_cast hb
  have hsq : ((voteCounts latest previous cfg).2 : ℚ) ≤ 5 := by exact_mod_cast hs
  have hb0 : (0 : ℚ) ≤ ((voteCounts latest previous cfg).1 : ℚ) := by positivity
  have hs0 : (0 : ℚ) ≤ ((voteCounts latest previous cfg).2 : ℚ) := by positivity
  unfold buyConfidence sellConfidence
  refine ⟨by positivity, by linarith, by positivity, by linarith⟩

/-- With enough data and a fully-defined latest row, the strategy runs the
five-check vote. -/
theorem analyze_eq_voteResult (df : List Row) (cfg : StratConfig)
    (latest previous : Row) (hlen : ¬df.length < 50)
    (hlast : df.getLast? = some latest)
    (hprev : df.dropLast.getLast? = some previous)
    (hdef : requiredDefined latest = true) :
    analyze_advanced_strategy df cfg = voteResult latest previous cfg := by
  unfold analyze_advanced_strategy
  rw [if_neg hlen, hlast, hprev]
  simp [hdef]

/-- C3: past the data-sufficiency checks, the returned signal is `buy` iff
`buy_confidence ≥ 60` and `buy_confidence > sell_confidence`, `sell` iff
the symmetric condition holds, and on `hold` the returned confidence is
`max buy_confidence sell_confidence`; the returned confidence always lies in
`[0, 100]` (so exactly one of the three signals is returned, by the two
mutually exclusive iffs). -/
theorem signal_decision_rule (df : List Row) (cfg : StratConfig)
    (latest previous : Row) (hlen : ¬df.length < 50)
    (hlast : df.getLast? = some latest)
    (hprev : df.dropLast.getLast? = some previous)
    (hdef : requiredDefined latest = true) :
    ((analyze_advanced_strategy df cfg).signal = Signal.buy ↔
      60 ≤ buyConfidence latest previous cfg ∧
      sellConfidence latest previous cfg < buyConfidence latest previous cfg) ∧
    ((analyze_advanced_strategy df cfg).signal = Signal.sell ↔
      60 ≤ sellConfidence latest previous cfg ∧
      buyConfidence latest previous cfg < sellConfidence latest previous cfg) ∧
    ((analyze_advanced_strategy df cfg).signal = Signal.hold →
      (analyze_advanced_strategy df cfg).confidence =
        max (buyConfidence latest previous cfg) (sellConfidence latest previous cfg)) ∧
    0 ≤ (analyze_advanced_strategy df cfg).confidence ∧
    (analyze_advanced_strategy df cfg).confidence ≤ 100 := by
  rw [analyze_eq_voteResult df cfg latest previous hlen hlast hprev hdef]
  obtain ⟨hb0, hb1, hs0, hs1⟩ := confidence_in_range latest previous cfg
  unfold voteResult
  split_ifs with h1 h2
  · refine ⟨by simp [h1], ?_, by simp, hb0, hb1⟩
    simp only [show (Signal.buy = Signal.sell) = False by simp, false_iff]
    rintro ⟨-, hlt⟩
    exact absurd h1.2 (not_lt.mpr hlt.le)
  · refine ⟨?_, by simp [h2], by simp, hs0, hs1⟩
    simp only [show (Signal.sell = Signal.buy) = False by simp, false_iff]
    rintro ⟨-, hlt⟩
    exact absurd h2.2 (not_lt.mpr hlt.le)
  · refine ⟨by simp [h1], by simp [h2], fun _ => rfl, le_max_iff.mpr (Or.inl hb0), ?_⟩
    exact max_le hb1 hs1

/-- Concrete witness for `signal_decision_rule`: fifty identical neutral bars
yield a hold with confidence in range. -/
theorem signal_decision_rule_witness :
    0 ≤ (analyze_advanced_strategy
      (List.replicate 50 ⟨some 50, some 1, some 1, some 3, some 0, some 1, some 1, some 2⟩)
      ⟨30, 70⟩).confidence :=
  (signal_decision_rule
    (List.replicate 50 ⟨some 50, some 1, some 1, some 3, some 0, some 1, some 1, some 2⟩)
    ⟨30, 70⟩
    ⟨some 50, some 1, some 1, some 3, some 0, some 1, some 1, some 2⟩
    ⟨some 50, some 1, some 1, some 3, some 0, some 1, some 1, some 2⟩
    (by decide) (by decide) (by decide) (by decide)).2.2.2.1

/-- The five-check vote never returns a data-sufficiency sentinel reason. -/
theorem voteResult_not_sentinel (latest previous : Row) (cfg : StratConfig) :
    ¬isSentinel (voteResult latest previous cfg) := by
  unfold voteResult isSentinel
  split_ifs <;> simp

/-- C6 counterexample: a history of exactly two bars whose required indicator
fields are all defined still gets the `"Insufficient data"` sentinel — the
code demands 50 bars, not 2. -/
theorem sentinel_two_bars_counterexample :
    requiredDefined ⟨some 50, some 1, some 1, some 3, some 0, some 1, some 1, some 2⟩
        = true ∧
    analyze_advanced_strategy
      [⟨some 50, some 1, some 1, some 3, some 0, some 1, some 1, some 2⟩,
       ⟨some 50, some 1, some 1, some 3, some 0, some 1, some 1, some 2⟩]
      ⟨30, 70⟩ = ⟨Signal.hold, 0, Reason.insufficientData⟩ :=
  ⟨rfl, rfl⟩

/-- C6 (amended): the strategy returns a data-sufficiency sentinel
(`"Insufficient data"` or `"Waiting for indicator data"`) iff the history has
fewer than 50 bars or the latest bar leaves some required indicator field
undefined; with at least 50 bars and a fully-defined latest bar it proceeds to
the weighted vote — `NaN`s on earlier bars do not trigger the sentinel. -/
theorem sentinel_iff_short_or_latest_undefined (df : List Row) (cfg : StratConfig) :
    isSentinel (analyze_advanced_strategy df cfg) ↔
      df.length < 50 ∨
        ∃ latest, df.getLast? = some latest ∧ requiredDefined latest = false := by
  by_cases hlen : df.length < 50
  · simp [analyze_advanced_strategy, hlen, isSentinel]
  · have h50 : 50 ≤ df.length := not_lt.mp hlen
    have hne : df ≠ [] := by
      intro h
      rw [h] at h50
      simp at h50
    obtain ⟨latest, hlast⟩ := Option.isSome_iff_exists.mp
      (List.getLast?_isSome.mpr hne)
    have hne2 : df.dropLast ≠ [] := by
      intro h
      have := List.length_dropLast df
      rw [h] at this
      simp at this
      omega
    obtain ⟨previous, hprev⟩ := Option.isSome_iff_exists.mp
      (List.getLast?_isSome.mpr hne2)
    by_cases hdef : requiredDefined latest
    · rw [analyze_eq_voteResult df cfg latest previous hlen hlast hprev hdef]
      have hns := voteResult_not_sentinel latest previous cfg
      constructor
      · intro h
        exact absurd h hns
      · rintro (h | ⟨l', hl', hl'def⟩)
        · exact absurd h hlen
        · rw [hlast] at hl'
          injection hl' with hl''
          rw [← hl''] at hl'def
          rw [hdef] at hl'def
          simp at hl'def
    · have hres : analyze_advanced_strategy df cfg =
          ⟨Signal.hold, 0, Reason.waitingForIndicator⟩ := by
        unfold analyze_advanced_strategy
        rw [if_neg hlen, hlast, hprev]
        simp [hdef]
      rw [hres]
      constructor
      · intro _
        exact Or.inr ⟨latest, hlast, by simpa using hdef⟩
      · intro _
        exact Or.inr rfl

/-- Concrete witness for `sentinel_iff_short_or_latest_undefined`: a one-bar
history is reported as a sentinel. -/
theorem sentinel_iff_short_or_latest_undefined_witness :
    isSentinel (analyze_advanced_strategy
      [⟨some 50, some 1, some 1, some 3, some 0, some 1, some 1, some 2⟩] ⟨30, 70⟩) :=
  (sentinel_iff_short_or_latest_undefined
    [⟨some 50, some 1, some 1, some 3, some 0, some 1, some 1, some 2⟩] ⟨30, 70⟩).mpr
    (Or.inl (by decide))

/-! ### Theorems for claim C7 -/

/-- Pointwise-nonnegative binary maps give nonnegative `zipWith` entries. -/
theorem mem_zipWith_nonneg (f : ℚ → ℚ → ℚ) (hf : ∀ a b, 0 ≤ f a b) :
    ∀ (l₁ l₂ : List ℚ) (x : ℚ), x ∈ List.zipWith f l₁ l₂ → 0 ≤ x := by
  intro l₁
  induction l₁ with
  | nil =>
    intro l₂ x hx
    simp at hx
  | cons a t ih =>
    intro l₂ x hx
    cases l₂ with
    | nil => simp at hx
    | cons b t₂ =>
      rw [List.zipWith_cons_cons, List.mem_cons] at hx
      rcases hx with rfl | hx
      · exact hf a b
      · exact ih t₂ x hx

/-- Every entry of the gain series is nonnegative. -/
theorem gains_nonneg (prices : List ℚ) : ∀ x ∈ gains prices, 0 ≤ x := by
  cases prices with
  | nil =>
    intro x hx
    simp [gains] at hx
  | cons p ps =>
    intro x hx
    simp only [gains, List.mem_cons] at hx
    rcases hx with rfl | hx
    · exact le_refl 0
    · refine mem_zipWith_nonneg _ ?_ _ _ x hx
      intro a b
      split_ifs with h
      · linarith
      · exact le_refl 0

/-- A defined rolling mean of a nonnegative series is nonnegative. -/
theorem rollingMean_nonneg (period : ℕ) (l : List ℚ) (i : ℕ) (g : ℚ)
    (hl : ∀ x ∈ l, 0 ≤ x) (hg : rollingMean period l i = some g) : 0 ≤ g := by
  unfold rollingMean at hg
  split_ifs at hg with h
  injection hg with hg'
  subst hg'
  apply div_nonneg
  · apply List.sum_nonneg
    intro x hx
    exact hl x (List.mem_of_mem_take (List.mem_of_mem_drop hx))
  · positivity

/-- Unfolding `calculate_rsi` once both rolling means are defined. -/
theorem calculate_rsi_eq (prices : List ℚ) (period i : ℕ) (g l : ℚ)
    (hg : rollingMean period (gains prices) i = some g)
    (hl : rollingMean period (losses prices) i = some l) :
    calculate_rsi prices period i =
      if 0 < l then some (100 - 100 / (1 + g / l))
      else if 0 < g then some 100 else none := by
  unfold calculate_rsi
  rw [hg, hl]

/-- C7: for every price sequence and every (positive) period, the RSI value is
undefined at every index below `period − 1`; and wherever it is defined while
the average rolling loss is positive, it lies in `[0, 100]`. -/
theorem rsi_window_and_range (prices : List ℚ) (period : ℕ) :
    (∀ i, i < period - 1 → calculate_rsi prices period i = none) ∧
    (∀ i r l, calculate_rsi prices period i = some r →
      rollingMean period (losses prices) i = some l → 0 < l →
      0 ≤ r ∧ r ≤ 100) := by
  constructor
  · intro i hi
    have hn : rollingMean period (gains prices) i = none := by
      unfold rollingMean
      rw [if_neg]
      rintro ⟨h1, -⟩
      omega
    unfold calculate_rsi
    cases h2 : rollingMean period (losses prices) i <;> rw [hn]
  · intro i r l hr hl hlpos
    cases hg : rollingMean period (gains prices) i with
    | none =>
      unfold calculate_rsi at hr
      rw [hg, hl] at hr
      simp at hr
    | some g =>
      rw [calculate_rsi_eq prices period i g l hg hl, if_pos hlpos] at hr
      injection hr with hr'
      have hg0 : 0 ≤ g :=
        rollingMean_nonneg period (gains prices) i g (gains_nonneg prices) hg
      have hrs : 0 ≤ g / l := div_nonneg hg0 (le_of_lt hlpos)
      have h1 : (0 : ℚ) < 1 + g / l := by linarith
      have h2 : 100 / (1 + g / l) ≤ 100 := by
        rw [div_le_iff₀ h1]
        nlinarith
      have h3 : 0 < 100 / (1 + g / l) := by positivity
      constructor <;> linarith [hr'.symm]

/-- Concrete witness for `rsi_window_and_range`: with the default 14-period,
RSI is undefined at index 0. -/
theorem rsi_window_and_range_witness :
    calculate_rsi [(1 : ℚ), 2, 3] 14 0 = none :=
  (rsi_window_and_range [(1 : ℚ), 2, 3] 14).1 0 (by decide)

/-! ### Theorems for claim C5 -/

/-- A drawdown-scan step on a value below the running peak keeps the peak and
accumulates the maximum of the old drawdown and this bar's drawdown. -/
theorem mdStep_le (peak md e : ℚ) (h : e ≤ peak) :
    mdStep (peak, md) e = (peak, max md ((peak - e) / peak * 100)) := by
  simp only [mdStep]
  rw [if_neg (not_lt.mpr h)]
  rcases le_or_lt ((peak - e) / peak * 100) md with hc | hc
  · rw [if_neg (not_lt.mpr hc), max_eq_left hc]
  · rw [if_pos hc, max_eq_right (le_of_lt hc)]

/-- A drawdown-scan step on a value above the running peak raises the peak to
it; this bar's drawdown is 0, so a nonnegative accumulator is unchanged. -/
theorem mdStep_ge (peak md e : ℚ) (h : peak ≤ e) (hmd : 0 ≤ md) :
    mdStep (peak, md) e = (e, md) := by
  have hpe : (if peak < e then e else peak) = e := by
    rcases lt_or_eq_of_le h with h' | h'
    · rw [if_pos h']
    · rw [← h']
      simp
  simp only [mdStep]
  rw [hpe, sub_self, zero_div, zero_mul, if_neg (not_lt.mpr hmd)]

/-- The scan consumes a non-decreasing run by moving the peak to its last
element, leaving the accumulated drawdown unchanged. -/
theorem foldl_mdStep_ascending (xs : List ℚ) (peak md : ℚ)
    (hch : List.Chain (· ≤ ·) peak xs) (hmd : 0 ≤ md) :
    List.foldl mdStep (peak, md) xs = (xs.getLastD peak, md) := by
  induction xs generalizing peak with
  | nil => simp
  | cons x t ih =>
    rw [List.chain_cons] at hch
    rw [List.foldl_cons, mdStep_ge peak md x hch.1 hmd, ih x hch.2,
      List.getLastD_cons]

/-- Along a non-increasing chain, the last element is below the head. -/
theorem chain_ge_getLastD (z : ℚ) (t : List ℚ)
    (h : List.Chain (fun a b => b ≤ a) z t) : t.getLastD z ≤ z := by
  induction t generalizing z with
  | nil => exact le_refl z
  | cons w t' ih =>
    rw [List.chain_cons] at h
    rw [List.getLastD_cons]
    exact le_trans (ih w h.2) h.1

/-- The scan over a non-increasing run staying below a positive running peak
accumulates the drawdown of the run's minimum, its last element. -/
theorem foldl_mdStep_descending (ys : List ℚ) (y peak md : ℚ)
    (hch : List.Chain (fun a b => b ≤ a) y ys) (hy : y ≤ peak) (hpk : 0 < peak)
    (hmd : 0 ≤ md) :
    (List.foldl mdStep (peak, md) (y :: ys)).2 =
      max md ((peak - ys.getLastD y) / peak * 100) := by
  induction ys generalizing y md with
  | nil =>
    rw [List.foldl_cons, mdStep_le peak md y hy, List.foldl_nil]
    rfl
  | cons z t ih =>
    rw [List.chain_cons] at hch
    rw [List.foldl_cons, mdStep_le peak md y hy]
    have hzy : z ≤ y := hch.1
    have hrec := ih z (max md ((peak - y) / peak * 100)) hch.2
      (le_trans hzy hy) (le_trans hmd (le_max_left _ _))
    rw [hrec, List.getLastD_cons]
    have htr : t.getLastD z ≤ y := le_trans (chain_ge_getLastD z t hch.2) hzy
    have hdd : (peak - y) / peak * 100 ≤ (peak - t.getLastD z) / peak * 100 := by
      have h1 : peak - y ≤ peak - t.getLastD z := by linarith
      have h2 : (peak - y) / peak ≤ (peak - t.getLastD z) / peak := by
        apply div_le_div_of_nonneg_right h1 (le_of_lt hpk)
      linarith
    rw [max_assoc, max_eq_right hdd]

/-- C5: the running-peak drawdown scan returns 0 on every monotonically
non-decreasing equity curve; on a curve that rises to a peak and then falls to
a trough (descent starting at or below the peak, positive peak) it returns
`(peak − trough)/peak · 100`. -/
theorem max_drawdown_shape :
    (∀ l : List ℚ, List.Chain' (· ≤ ·) l → max_drawdown l = 0) ∧
    (∀ (xs ys : List ℚ) (peak trough h₀ : ℚ),
      List.Chain' (· ≤ ·) xs → List.Chain' (fun a b => b ≤ a) ys →
      xs.getLast? = some peak → ys.getLast? = some trough →
      ys.head? = some h₀ → h₀ ≤ peak → 0 < peak →
      max_drawdown (xs ++ ys) = (peak - trough) / peak * 100) := by
  constructor
  · intro l hl
    cases l with
    | nil => rfl
    | cons e rest =>
      have hch : List.Chain (· ≤ ·) e (e :: rest) := List.Chain.cons (le_refl e) hl
      have hmd : max_drawdown (e :: rest) =
          (List.foldl mdStep (e, 0) (e :: rest)).2 := rfl
      rw [hmd, foldl_mdStep_ascending (e :: rest) e 0 hch (le_refl 0)]
  · intro xs ys peak trough h₀ hxs hys hpeak htrough hhead hle hpk
    cases xs with
    | nil => simp at hpeak
    | cons x xs' =>
      cases ys with
      | nil => simp at hhead
      | cons y ys' =>
        injection hhead with hy
        subst hy
        have hxs' : List.Chain (· ≤ ·) x xs' := hxs
        have hys' : List.Chain (fun a b => b ≤ a) y ys' := hys
        have hmd : max_drawdown ((x :: xs') ++ (y :: ys')) =
            (((x :: xs') ++ (y :: ys')).foldl mdStep (x, 0)).2 := rfl
        rw [hmd, List.foldl_append,
          foldl_mdStep_ascending (x :: xs') x 0
            (List.Chain.cons (le_refl x) hxs') (le_refl 0)]
        have hpl : (x :: xs').getLastD x = peak := by
          rw [List.getLastD_eq_getLast?, hpeak]
          rfl
        rw [hpl, foldl_mdStep_descending ys' y peak 0 hys' hle hpk (le_refl 0)]
        have htr : ys'.getLastD y = trough := by
          rw [List.getLastD_eq_getLast?]
          cases ys' with
          | nil =>
            simp at htrough
            simp [htrough]
          | cons z t =>
            rw [List.getLast?_cons_cons] at htrough
            rw [htrough]
            rfl
        rw [htr]
        have htp : trough ≤ peak := by
          have h1 : ys'.getLastD y ≤ y := chain_ge_getLastD y ys' hys'
          rw [htr] at h1
          exact le_trans h1 hle
        have hdd0 : 0 ≤ (peak - trough) / peak * 100 := by
          apply mul_nonneg _ (by norm_num)
          apply div_nonneg (by linarith) (le_of_lt hpk)
        exact max_eq_right hdd0

/-- Concrete witness for `max_drawdown_shape`: the curve 1,2,4,3,2 rises to
peak 4 and falls to trough 2, for a 50% maximum drawdown. -/
theorem max_drawdown_shape_witness :
    max_drawdown ([(1 : ℚ), 2, 4] ++ [3, 2]) = (4 - 2) / 4 * 100 :=
  max_drawdown_shape.2 [(1 : ℚ), 2, 4] [3, 2] 4 2 3
    (by norm_num [List.chain'_cons, List.chain'_singleton])
    (by norm_num [List.chain'_cons, List.chain'_singleton])
    rfl rfl rfl (by norm_num) (by norm_num)

/-- Concrete witness for `close_position_idempotent`: closing `"BTC/USDT"`
twice on a one-position book. -/
theorem close_position_idempotent_witness :
    close_position
      (close_position
        ⟨[], fun s => if s = "BTC/USDT" then some ⟨Side.buy, 10, 2, 0⟩ else none⟩
        "BTC/USDT" 12 1).1 "BTC/USDT" 14 2 =
    ((close_position
        ⟨[], fun s => if s = "BTC/USDT" then some ⟨Side.buy, 10, 2, 0⟩ else none⟩
        "BTC/USDT" 12 1).1, none) :=
  close_position_idempotent
    ⟨[], fun s => if s = "BTC/USDT" then some ⟨Side.buy, 10, 2, 0⟩ else none⟩
    "BTC/USDT" ⟨Side.buy, 10, 2, 0⟩ 12 14 1 2 (by simp)

end TradingBot
